import Mathlib

/-!
Verification of the MCP Bedrock chat client (`mcp-client/bedrockClient.py`).

The source is a single Python file.  Its interesting behaviour lives in
`MCPClient.process_query` (the conversation loop), `MCPClient.chat_loop`
(the interactive shell) and `MCPClient.connect_to_server` (interpreter
selection for the tool-server script).  We embed those three functions as
pure Lean functions:

* The Bedrock gateway (`self.bedrock.converse`) is an external network
  collaborator.  We model it as a script: a list of outcomes, consumed one
  per `converse` call, each outcome either a well-formed response or a
  `ClientError`.
* The tool-protocol session (`self.session.call_tool`) is modelled as a
  total function from tool name and arguments to a result value.
* Python dicts such as content blocks are modelled as structures of
  optional fields, mirroring the `"text" in content` membership tests.
* Besides the returned string, the embedding records ghost trace fields
  (the history snapshot passed at each gateway call, the tool invocations
  performed, the output fragments) so that the observable interaction
  with the collaborators can be stated and proved.
-/

/-- Python `str.endswith`, over the character sequence of the string. -/
def pyEndsWith (s p : String) : Bool := List.isSuffixOf p.data s.data

/-- Python `str.strip()`: drop leading and trailing whitespace. -/
def pyStrip (s : String) : String :=
  ⟨((s.data.dropWhile Char.isWhitespace).reverse.dropWhile Char.isWhitespace).reverse⟩

/-- Python `str.lower()` (on the ASCII letters relevant here). -/
def pyLower (s : String) : String := ⟨s.data.map Char.toLower⟩

/-- One `toolUse` dict of a Bedrock content block: fields `name`, `input`
and `toolUseId`.  The tool arguments (a JSON object in the source) are
modelled as an uninterpreted string. -/
structure ToolUseBlock where
  name : String
  input : String
  toolUseId : String
deriving DecidableEq

/-- The `tool_result` dict synthesized by `process_query` after a tool call:
`toolUseId` plus a content list.  In the source each entry of the content
list is a single-text dict; we keep just the text. -/
structure ToolResultBlock where
  toolUseId : String
  content : List String
deriving DecidableEq

/-- One content block, a Python dict that may carry the keys `text`,
`toolUse` and `toolResult`.  A block with none of the keys set models a
dict with some other (ignored) key. -/
structure Block where
  text? : Option String := none
  toolUse? : Option ToolUseBlock := none
  toolResult? : Option ToolResultBlock := none
deriving DecidableEq

/-- One message of the conversation history: a role string and a content
block list, as in the dicts built by `process_query`. -/
structure Message where
  role : String
  content : List Block
deriving DecidableEq

/-- The `message` dict of a gateway response; `content?` is absent when the
dict has no `content` key (the code tests `if "content" in output_message`). -/
structure GatewayMessage where
  content? : Option (List Block) := none
deriving DecidableEq

/-- The `output` dict of a gateway response. -/
structure GatewayOutput where
  message? : Option GatewayMessage := none
deriving DecidableEq

/-- A well-formed response of `bedrock.converse`; any of the nested fields
may be absent, mirroring the `response.get("output", {}).get("message", {})`
chains in the source. -/
structure GatewayResponse where
  output? : Option GatewayOutput := none
deriving DecidableEq

/-- `response.get("output", {}).get("message", {})` from the source. -/
def GatewayResponse.outputMessage (r : GatewayResponse) : GatewayMessage :=
  (r.output?.getD {}).message?.getD {}

/-- `output_message.get("content", [])`: the content blocks of a response,
an empty list when any nesting level is absent. -/
def responseContent (r : GatewayResponse) : List Block :=
  r.outputMessage.content?.getD []

/-- The result object of `session.call_tool`.  `content?` models the
optional `content` attribute (already in string form, covering both the
`isinstance(result.content, str)` branch and the `str(result.content)`
branch); `str` models `str(result)` for objects without that attribute. -/
structure CallToolResult where
  content? : Option String := none
  str : String := ""
deriving DecidableEq

/-- The stringification of a tool result performed by `process_query`:
use the `content` attribute when present, else the generic string form. -/
def stringifyResult (r : CallToolResult) : String :=
  match r.content? with
  | some s => s
  | none => r.str

/-- One outcome of a `bedrock.converse` call: either a response or a
`botocore` `ClientError` carrying a message (the message is only printed). -/
inductive GatewayOutcome where
  | ok (r : GatewayResponse)
  | err (msg : String)
deriving DecidableEq

/-- Consume the next scripted gateway outcome.  An exhausted script behaves
as a `ClientError` (the remote service always answers something; claims are
stated with scripts long enough for the run). -/
def takeOutcome : List GatewayOutcome → GatewayOutcome × List GatewayOutcome
  | [] => (GatewayOutcome.err "no response", [])
  | o :: rest => (o, rest)

/-- The informational marker `process_query` appends to the output buffer
for a tool call. -/
def mkMarker (tu : ToolUseBlock) : String :=
  "[Calling tool " ++ tu.name ++ " with args " ++ tu.input ++ "]"

/-- The `user` message wrapping the synthesized `toolResult` block that
`process_query` appends to the history after executing a tool. -/
def mkToolResultMessage (tu : ToolUseBlock) (rc : String) : Message :=
  ⟨"user", [{ toolResult? := some ⟨tu.toolUseId, [rc]⟩ }]⟩

/-- The initial `user` message holding the query text. -/
def mkUserMessage (q : String) : Message :=
  ⟨"user", [{ text? := some q }]⟩

/-- The text fragments `process_query` harvests from a follow-up response:
nothing when the `content` key is absent, else the `text` value of every
block that has one (`if "text" in content`). -/
def followTexts (m : GatewayMessage) : List String :=
  match m.content? with
  | some cs => cs.filterMap (fun c => c.text?)
  | none => []

/-- State of the block-processing loop of `process_query`: the message
history, the output buffer `final_text`, the unconsumed gateway script, and
ghost trace fields (history snapshots passed at gateway calls, tool
invocations performed) plus the aborted flag modelling the early
`return "Error calling Bedrock API"`. -/
structure LoopState where
  messages : List Message
  finalText : List String
  script : List GatewayOutcome
  gatewayHistories : List (List Message)
  toolInvocations : List (String × String)
  aborted : Bool
deriving DecidableEq

/-- One iteration of the `for content in content_list` loop of
`process_query`.  A `text` key appends to the output buffer; otherwise a
`toolUse` key executes the tool, appends the marker and the synthesized
tool-result message, and performs the follow-up gateway call, harvesting
the follow-up texts on success and aborting on `ClientError`; any other
block is skipped.  Once aborted (the Python early return) the remaining
iterations do nothing. -/
def handleBlock (tool : String → String → CallToolResult)
    (st : LoopState) (b : Block) : LoopState :=
  if st.aborted then st
  else
    match b.text? with
    | some t => { st with finalText := st.finalText ++ [t] }
    | none =>
      match b.toolUse? with
      | none => st
      | some tu =>
        let result_content := stringifyResult (tool tu.name tu.input)
        let st1 : LoopState :=
          { st with
            toolInvocations := st.toolInvocations ++ [(tu.name, tu.input)]
            finalText := st.finalText ++ [mkMarker tu]
            messages := st.messages ++ [mkToolResultMessage tu result_content] }
        let p := takeOutcome st1.script
        let st2 : LoopState :=
          { st1 with
            script := p.2
            gatewayHistories := st1.gatewayHistories ++ [st1.messages] }
        match p.1 with
        | GatewayOutcome.ok r =>
          let om := r.outputMessage
          { st2 with
            messages := st2.messages ++ [⟨"assistant", om.content?.getD []⟩]
            finalText := st2.finalText ++ followTexts om }
        | GatewayOutcome.err _ => { st2 with aborted := true }

/-- The whole `for content in content_list` loop. -/
def runBlocks (tool : String → String → CallToolResult)
    (st : LoopState) (blocks : List Block) : LoopState :=
  blocks.foldl (handleBlock tool) st

/-- Result of one `process_query` call: the returned string plus ghost
trace fields mirroring the observable interaction (final history, the
history snapshot passed at each gateway call, the tool invocations, the
output-buffer fragments, and whether a `ClientError` aborted the query). -/
structure QueryResult where
  result : String
  messages : List Message
  finalText : List String
  gatewayHistories : List (List Message)
  toolInvocations : List (String × String)
  errored : Bool
deriving DecidableEq

/-- `MCPClient.process_query`.  A fresh history containing only the user
message is built, the initial gateway call is made (a `ClientError` returns
the fixed error string at once), the assistant content is appended verbatim
to the history, and the content blocks are processed in order by
`handleBlock`.  The returned string is the newline-join of the output
buffer, or the fixed error string when some gateway call failed. -/
def process_query (tool : String → String → CallToolResult)
    (script : List GatewayOutcome) (query : String) : QueryResult :=
  let messages : List Message := [mkUserMessage query]
  let p := takeOutcome script
  match p.1 with
  | GatewayOutcome.err _ =>
    { result := "Error calling Bedrock API"
      messages := messages
      finalText := []
      gatewayHistories := [messages]
      toolInvocations := []
      errored := true }
  | GatewayOutcome.ok r =>
    let content_list := r.outputMessage.content?.getD []
    let st0 : LoopState :=
      { messages := messages ++ [⟨"assistant", content_list⟩]
        finalText := []
        script := p.2
        gatewayHistories := [messages]
        toolInvocations := []
        aborted := false }
    let st := runBlocks tool st0 content_list
    { result :=
        if st.aborted then "Error calling Bedrock API"
        else String.intercalate "\n" st.finalText
      messages := st.messages
      finalText := st.finalText
      gatewayHistories := st.gatewayHistories
      toolInvocations := st.toolInvocations
      errored := st.aborted }

/-- The dispatch decision of the loop body for one block: a block is
dispatched as a tool call exactly when it has no `text` key and has a
`toolUse` key (the `elif "toolUse" in content` branch). -/
def blockDispatch (b : Block) : Option ToolUseBlock :=
  match b.text? with
  | some _ => none
  | none => b.toolUse?

/-- The `toolUse` blocks of a content list that the loop dispatches, in
order. -/
def dispatchedTools (blocks : List Block) : List ToolUseBlock :=
  blocks.filterMap blockDispatch

/-- The follow-up script provides a well-formed response for every
dispatched block of the content list. -/
def scriptOk : List Block → List GatewayOutcome → Bool
  | [], _ => true
  | b :: bs, s =>
    match blockDispatch b with
    | none => scriptOk bs s
    | some _ =>
      match s with
      | GatewayOutcome.ok _ :: rest => scriptOk bs rest
      | _ => false

/-- Messages appended to the history by the loop, in closed form. -/
def deltaMsgs (tool : String → String → CallToolResult) :
    List Block → List GatewayOutcome → List Message
  | [], _ => []
  | b :: bs, s =>
    match blockDispatch b with
    | none => deltaMsgs tool bs s
    | some tu =>
      match s with
      | GatewayOutcome.ok r :: rest =>
        mkToolResultMessage tu (stringifyResult (tool tu.name tu.input)) ::
          Message.mk "assistant" (r.outputMessage.content?.getD []) ::
            deltaMsgs tool bs rest
      | _ => [mkToolResultMessage tu (stringifyResult (tool tu.name tu.input))]

/-- Output-buffer fragments appended by the loop, in closed form: each text
block contributes its text, each dispatched block contributes its marker
followed by every text fragment of its follow-up response (none when the
follow-up call fails, which aborts the loop). -/
def deltaTexts (tool : String → String → CallToolResult) :
    List Block → List GatewayOutcome → List String
  | [], _ => []
  | b :: bs, s =>
    match b.text? with
    | some t => t :: deltaTexts tool bs s
    | none =>
      match b.toolUse? with
      | none => deltaTexts tool bs s
      | some tu =>
        match s with
        | GatewayOutcome.ok r :: rest =>
          mkMarker tu :: (followTexts r.outputMessage ++ deltaTexts tool bs rest)
        | _ => [mkMarker tu]

/-- History snapshots passed at the follow-up gateway calls of the loop, in
closed form; `base` is the history at loop entry. -/
def deltaHists (tool : String → String → CallToolResult)
    (base : List Message) :
    List Block → List GatewayOutcome → List (List Message)
  | [], _ => []
  | b :: bs, s =>
    match blockDispatch b with
    | none => deltaHists tool base bs s
    | some tu =>
      let h := base ++ [mkToolResultMessage tu (stringifyResult (tool tu.name tu.input))]
      match s with
      | GatewayOutcome.ok r :: rest =>
        h :: deltaHists tool
          (h ++ [Message.mk "assistant" (r.outputMessage.content?.getD [])]) bs rest
      | _ => [h]

/-- Tool invocations performed by the loop, in closed form (a failing
follow-up call aborts the loop, so the failing block is the last one whose
tool runs). -/
def deltaTools : List Block → List GatewayOutcome → List (String × String)
  | [], _ => []
  | b :: bs, s =>
    match blockDispatch b with
    | none => deltaTools bs s
    | some tu =>
      match s with
      | GatewayOutcome.ok _ :: rest => (tu.name, tu.input) :: deltaTools bs rest
      | _ => [(tu.name, tu.input)]

/-- Whether the loop aborts with the fixed error string. -/
def runAborts : List Block → List GatewayOutcome → Bool
  | [], _ => false
  | b :: bs, s =>
    match blockDispatch b with
    | none => runAborts bs s
    | some _ =>
      match s with
      | GatewayOutcome.ok _ :: rest => runAborts bs rest
      | _ => true

/-- The gateway script left unconsumed after the loop. -/
def scriptAfter : List Block → List GatewayOutcome → List GatewayOutcome
  | [], s => s
  | b :: bs, s =>
    match blockDispatch b with
    | none => scriptAfter bs s
    | some _ =>
      match s with
      | GatewayOutcome.ok _ :: rest => scriptAfter bs rest
      | GatewayOutcome.err _ :: rest => rest
      | [] => []

/-- Number of `toolResult` blocks carrying a given id inside one message. -/
def msgToolResultCount (id : String) (m : Message) : Nat :=
  (m.content.filter (fun b =>
    match b.toolResult? with
    | some tr => tr.toolUseId == id
    | none => false)).length

/-- Number of `toolResult` blocks carrying a given id in a history. -/
def historyToolResultCount (id : String) (h : List Message) : Nat :=
  (h.map (msgToolResultCount id)).sum

/-- Number of `toolUse` blocks carrying a given id inside one message. -/
def msgToolUseCount (id : String) (m : Message) : Nat :=
  (m.content.filter (fun b =>
    match b.toolUse? with
    | some tu => tu.toolUseId == id
    | none => false)).length

/-- Number of `toolUse` blocks carrying a given id in a history. -/
def historyToolUseCount (id : String) (h : List Message) : Nat :=
  (h.map (msgToolUseCount id)).sum

/-- `MCPClient.chat_loop` invokes `process_query` once per accepted input
line; no conversation state is threaded between the calls (the history is a
local variable of `process_query`).  `runQueries` makes that sequence of
independent calls explicit. -/
def runQueries (tool : String → String → CallToolResult)
    (scripts : List (List GatewayOutcome)) (queries : List String) :
    List QueryResult :=
  (scripts.zip queries).map (fun p => process_query tool p.1 p.2)

/-- Outcome of `MCPClient.connect_to_server` up to the launch of the child
process. -/
inductive ConnectOutcome where
  | launched (command : String) (args : List String)
  | unsupportedScript (msg : String)
  | nameErrorPythonPath
deriving DecidableEq

/-- `MCPClient.connect_to_server`, up to the launch of the child process.
A path ending in neither `.py` nor `.js` raises the unsupported-script
`ValueError` before anything is started.  A `.py` path selects the current
interpreter (`sys.executable`) as the command.  On the `.js` branch the
source sets `command = "node"`, but the subsequent computation of
`venv_site_packages` dereferences `python_path`, a variable assigned only
on the `.py` branch, so the call raises `NameError` before the child
process is started. -/
def connect_to_server (sysExecutable : String)
    (server_script_path : String) : ConnectOutcome :=
  let is_python := pyEndsWith server_script_path ".py"
  let is_js := pyEndsWith server_script_path ".js"
  if !(is_python || is_js) then
    ConnectOutcome.unsupportedScript "Server script must be a .py or .js file"
  else if is_python then
    ConnectOutcome.launched sysExecutable [server_script_path]
  else
    ConnectOutcome.nameErrorPythonPath

/-- Trace of one run of the interactive shell: the trimmed queries
forwarded to `process_query`, the lines printed for them, whether the loop
was left through the quit sentinel, and the input lines left unread. -/
structure ShellTrace where
  forwarded : List String
  printed : List String
  quitDone : Bool
  leftover : List String
deriving DecidableEq

/-- What the shell prints for one processed line: `print("\n" + response)`
on success, `print(f"\nError: ...")` when the query handler raised. -/
def renderResponse : Except String String → String
  | Except.ok r => "\n" ++ r
  | Except.error e => "\nError: " ++ e

/-- `MCPClient.chat_loop` over a list of input lines.  The per-query
handler is modelled as a total function into `Except`, an exception being
caught by the `except Exception` handler of the loop body.  Each line is
trimmed; a trimmed line equal to `quit` after lowercasing breaks out of the
loop, leaving the remaining lines unread; every other line (the empty one
included) is forwarded and the response (or error report) printed. -/
def chat_loop (process : String → Except String String) :
    List String → ShellTrace
  | [] => ⟨[], [], false, []⟩
  | line :: rest =>
    let query := pyStrip line
    if pyLower query = "quit" then ⟨[], [], true, rest⟩
    else
      let t := chat_loop process rest
      ⟨query :: t.forwarded,
        renderResponse (process query) :: t.printed,
        t.quitDone, t.leftover⟩

/-- A line is consumed without terminating the shell loop. -/
def notQuit (l : String) : Bool := !(pyLower (pyStrip l) == "quit")

/-! Concrete fixtures used by witnesses and counterexamples. -/

/-- A tool-protocol stub whose results carry a `content` attribute `"4"`. -/
def sampleTool : String → String → CallToolResult :=
  fun _ _ => { content? := some "4", str := "4" }

/-- A content block holding only a `text` key. -/
def textBlock (t : String) : Block := { text? := some t }

/-- A content block holding only a `toolUse` key. -/
def toolUseBlock (n i id : String) : Block := { toolUse? := some ⟨n, i, id⟩ }

/-- A fully populated gateway response with the given content blocks. -/
def mkResponse (bs : List Block) : GatewayResponse := ⟨some ⟨some ⟨some bs⟩⟩⟩

/-- Gateway script of the run refuting the at-most-one-fragment reading:
the initial response requests one tool call, the follow-up response holds
two text blocks. -/
def twoTextScript : List GatewayOutcome :=
  [GatewayOutcome.ok (mkResponse [toolUseBlock "add" "args" "t1"]),
   GatewayOutcome.ok (mkResponse [textBlock "a", textBlock "b"])]

/-- Gateway script of the run exhibiting an unanswered follow-up `toolUse`
block: the initial response requests two tool calls and the first follow-up
response itself holds a `toolUse` block (id `t3`), which is never answered
although a further gateway call happens. -/
def danglingToolUseScript : List GatewayOutcome :=
  [GatewayOutcome.ok (mkResponse [toolUseBlock "n1" "i1" "t1", toolUseBlock "n2" "i2" "t2"]),
   GatewayOutcome.ok (mkResponse [toolUseBlock "n3" "i3" "t3"]),
   GatewayOutcome.ok (mkResponse [])]

/-! Helper lemmas about the block-processing loop. -/

/-- Once aborted, the loop does nothing (the Python early return). -/
theorem runBlocks_of_aborted (tool : String → String → CallToolResult)
    (blocks : List Block) (st : LoopState) (h : st.aborted = true) :
    runBlocks tool st blocks = st := by
  induction blocks generalizing st with
  | nil => rfl
  | cons b bs ih =>
    have hstep : handleBlock tool st b = st := by
      simp [handleBlock, h]
    simp only [runBlocks, List.foldl_cons] at *
    rw [hstep]
    exact ih st h

/-- Closed-form characterization of the block-processing loop: starting
from a non-aborted state, the loop appends the closed-form deltas to the
history, the output buffer, the gateway-call trace and the tool-invocation
trace, consumes one scripted outcome per dispatched block, and ends aborted
exactly when a consumed outcome was an error. -/
theorem runBlocks_eq (tool : String → String → CallToolResult)
    (blocks : List Block) (st : LoopState) (h : st.aborted = false) :
    runBlocks tool st blocks =
      ⟨st.messages ++ deltaMsgs tool blocks st.script,
       st.finalText ++ deltaTexts tool blocks st.script,
       scriptAfter blocks st.script,
       st.gatewayHistories ++ deltaHists tool st.messages blocks st.script,
       st.toolInvocations ++ deltaTools blocks st.script,
       runAborts blocks st.script⟩ := by
  induction blocks generalizing st with
  | nil =>
    cases st with
    | mk m f s g t a =>
      simp_all [runBlocks, deltaMsgs, deltaTexts, scriptAfter, deltaHists,
        deltaTools, runAborts]
  | cons b bs ih =>
    rcases hb : b.text? with _ | t
    · rcases hu : b.toolUse? with _ | tu
      · have hd : blockDispatch b = none := by simp [blockDispatch, hb, hu]
        have hstep : handleBlock tool st b = st := by
          simp [handleBlock, h, hb, hu]
        have hrec := ih st h
        simp only [runBlocks, List.foldl_cons] at *
        rw [hstep, hrec]
        simp [deltaMsgs, deltaTexts, scriptAfter, deltaHists, deltaTools,
          runAborts, hd, hb, hu]
      · have hd : blockDispatch b = some tu := by simp [blockDispatch, hb, hu]
        rcases hs : st.script with _ | ⟨o, rest⟩
        · have hstep : handleBlock tool st b =
              ⟨st.messages ++ [mkToolResultMessage tu (stringifyResult (tool tu.name tu.input))],
               st.finalText ++ [mkMarker tu],
               [],
               st.gatewayHistories ++ [st.messages ++ [mkToolResultMessage tu (stringifyResult (tool tu.name tu.input))]],
               st.toolInvocations ++ [(tu.name, tu.input)],
               true⟩ := by
            simp [handleBlock, h, hb, hu, hs, takeOutcome]
          have habort := runBlocks_of_aborted tool bs
              ⟨st.messages ++ [mkToolResultMessage tu (stringifyResult (tool tu.name tu.input))],
               st.finalText ++ [mkMarker tu],
               [],
               st.gatewayHistories ++ [st.messages ++ [mkToolResultMessage tu (stringifyResult (tool tu.name tu.input))]],
               st.toolInvocations ++ [(tu.name, tu.input)],
               true⟩ rfl
          simp only [runBlocks, List.foldl_cons] at *
          rw [hstep, habort]
          simp [deltaMsgs, deltaTexts, scriptAfter, deltaHists, deltaTools,
            runAborts, hd, hb, hu, hs]
        · cases o with
          | err m =>
            have hstep : handleBlock tool st b =
                ⟨st.messages ++ [mkToolResultMessage tu (stringifyResult (tool tu.name tu.input))],
                 st.finalText ++ [mkMarker tu],
                 rest,
                 st.gatewayHistories ++ [st.messages ++ [mkToolResultMessage tu (stringifyResult (tool tu.name tu.input))]],
                 st.toolInvocations ++ [(tu.name, tu.input)],
                 true⟩ := by
              simp [handleBlock, h, hb, hu, hs, takeOutcome]
            have habort := runBlocks_of_aborted tool bs
                ⟨st.messages ++ [mkToolResultMessage tu (stringifyResult (tool tu.name tu.input))],
                 st.finalText ++ [mkMarker tu],
                 rest,
                 st.gatewayHistories ++ [st.messages ++ [mkToolResultMessage tu (stringifyResult (tool tu.name tu.input))]],
                 st.toolInvocations ++ [(tu.name, tu.input)],
                 true⟩ rfl
            simp only [runBlocks, List.foldl_cons] at *
            rw [hstep, habort]
            simp [deltaMsgs, deltaTexts, scriptAfter, deltaHists, deltaTools,
              runAborts, hd, hb, hu, hs]
          | ok r =>
            have hstep : handleBlock tool st b =
                ⟨(st.messages ++ [mkToolResultMessage tu (stringifyResult (tool tu.name tu.input))]) ++
                   [Message.mk "assistant" (r.outputMessage.content?.getD [])],
                 (st.finalText ++ [mkMarker tu]) ++ followTexts r.outputMessage,
                 rest,
                 st.gatewayHistories ++ [st.messages ++ [mkToolResultMessage tu (stringifyResult (tool tu.name tu.input))]],
                 st.toolInvocations ++ [(tu.name, tu.input)],
                 false⟩ := by
              simp [handleBlock, h, hb, hu, hs, takeOutcome]
            have hrec := ih
                ⟨(st.messages ++ [mkToolResultMessage tu (stringifyResult (tool tu.name tu.input))]) ++
                   [Message.mk "assistant" (r.outputMessage.content?.getD [])],
                 (st.finalText ++ [mkMarker tu]) ++ followTexts r.outputMessage,
                 rest,
                 st.gatewayHistories ++ [st.messages ++ [mkToolResultMessage tu (stringifyResult (tool tu.name tu.input))]],
                 st.toolInvocations ++ [(tu.name, tu.input)],
                 false⟩ rfl
            simp only [runBlocks, List.foldl_cons] at *
            rw [hstep, hrec]
            simp [deltaMsgs, deltaTexts, scriptAfter, deltaHists, deltaTools,
              runAborts, hd, hb, hu, hs, List.append_assoc]
    · have hd : blockDispatch b = none := by simp [blockDispatch, hb]
      have hstep : handleBlock tool st b = { st with finalText := st.finalText ++ [t] } := by
        simp [handleBlock, h, hb]
      have hrec := ih { st with finalText := st.finalText ++ [t] } h
      simp only [runBlocks, List.foldl_cons] at *
      rw [hstep, hrec]
      simp [deltaMsgs, deltaTexts, scriptAfter, deltaHists, deltaTools,
        runAborts, hd, hb, List.append_assoc]

/-- With a well-formed follow-up script, the loop invokes exactly the
dispatched tools, in order, with their names and arguments. -/
theorem deltaTools_of_scriptOk (blocks : List Block) (s : List GatewayOutcome)
    (h : scriptOk blocks s = true) :
    deltaTools blocks s =
      (dispatchedTools blocks).map (fun tu => (tu.name, tu.input)) := by
  induction blocks generalizing s with
  | nil => simp [deltaTools, dispatchedTools]
  | cons b bs ih =>
    rcases hd : blockDispatch b with _ | tu
    · simp only [scriptOk, hd] at h
      simp [deltaTools, dispatchedTools, List.filterMap_cons, hd, ih s h]
    · rcases hs : s with _ | ⟨o, rest⟩
      · rw [hs] at h; simp [scriptOk, hd] at h
      · cases o with
        | err m => rw [hs] at h; simp [scriptOk, hd] at h
        | ok r =>
          rw [hs] at h
          simp only [scriptOk, hd] at h
          simp [deltaTools, dispatchedTools, List.filterMap_cons, hd, ih rest h]

/-- Unconditionally, the tools the loop invokes form an initial segment of
the dispatched tools of the content list (a failing follow-up call abandons
the remaining blocks). -/
theorem deltaTools_isPre (blocks : List Block) (s : List GatewayOutcome) :
    deltaTools blocks s <+:
      (dispatchedTools blocks).map (fun tu => (tu.name, tu.input)) := by
  induction blocks generalizing s with
  | nil => simp [deltaTools, dispatchedTools]
  | cons b bs ih =>
    rcases hd : blockDispatch b with _ | tu
    · simpa [deltaTools, dispatchedTools, List.filterMap_cons, hd] using ih s
    · rcases hs : s with _ | ⟨o, rest⟩
      · simp only [deltaTools, dispatchedTools, List.filterMap_cons, hd]
        exact ⟨(List.filterMap blockDispatch bs).map (fun tu => (tu.name, tu.input)), by simp⟩
      · cases o with
        | err m =>
          simp only [deltaTools, dispatchedTools, List.filterMap_cons, hd]
          exact ⟨(List.filterMap blockDispatch bs).map (fun tu => (tu.name, tu.input)), by simp⟩
        | ok r =>
          simp only [deltaTools, dispatchedTools, List.filterMap_cons, hd, List.map_cons]
          obtain ⟨t, ht⟩ := ih rest
          exact ⟨t, by simp [ht, dispatchedTools]⟩

/-- With a well-formed follow-up script, the loop does not abort. -/
theorem runAborts_of_scriptOk (blocks : List Block) (s : List GatewayOutcome)
    (h : scriptOk blocks s = true) : runAborts blocks s = false := by
  induction blocks generalizing s with
  | nil => simp [runAborts]
  | cons b bs ih =>
    rcases hd : blockDispatch b with _ | tu
    · simp only [scriptOk, hd] at h
      simp [runAborts, hd, ih s h]
    · rcases hs : s with _ | ⟨o, rest⟩
      · rw [hs] at h; simp [scriptOk, hd] at h
      · cases o with
        | err m => rw [hs] at h; simp [scriptOk, hd] at h
        | ok r =>
          rw [hs] at h
          simp only [scriptOk, hd] at h
          simp [runAborts, hd, ih rest h]

/-- With a well-formed follow-up script, the loop performs exactly one
follow-up gateway call per dispatched block. -/
theorem deltaHists_length_of_scriptOk (tool : String → String → CallToolResult)
    (blocks : List Block) (s : List GatewayOutcome) (base : List Message)
    (h : scriptOk blocks s = true) :
    (deltaHists tool base blocks s).length = (dispatchedTools blocks).length := by
  induction blocks generalizing s base with
  | nil => simp [deltaHists, dispatchedTools]
  | cons b bs ih =>
    rcases hd : blockDispatch b with _ | tu
    · simp only [scriptOk, hd] at h
      simp [deltaHists, dispatchedTools, List.filterMap_cons, hd, ih s base h]
    · rcases hs : s with _ | ⟨o, rest⟩
      · rw [hs] at h; simp [scriptOk, hd] at h
      · cases o with
        | err m => rw [hs] at h; simp [scriptOk, hd] at h
        | ok r =>
          rw [hs] at h
          simp only [scriptOk, hd] at h
          simp [deltaHists, dispatchedTools, List.filterMap_cons, hd, ih rest _ h]

/-- Every history snapshot passed at a follow-up call extends the history
the loop started from. -/
theorem deltaHists_mem_extends (tool : String → String → CallToolResult)
    (blocks : List Block) (s : List GatewayOutcome) (base : List Message) :
    ∀ hh ∈ deltaHists tool base blocks s, base <+: hh := by
  induction blocks generalizing s base with
  | nil => simp [deltaHists]
  | cons b bs ih =>
    intro hh hmem
    rcases hd : blockDispatch b with _ | tu
    · rw [deltaHists, hd] at hmem
      exact ih s base hh hmem
    · rcases hs : s with _ | ⟨o, rest⟩
      · rw [hs, deltaHists, hd] at hmem
        simp only [List.mem_singleton] at hmem
        exact hmem ▸ ⟨_, rfl⟩
      · cases o with
        | err m =>
          rw [hs, deltaHists, hd] at hmem
          simp only [List.mem_singleton] at hmem
          exact hmem ▸ ⟨_, rfl⟩
        | ok r =>
          rw [hs, deltaHists, hd] at hmem
          simp only [List.mem_cons] at hmem
          rcases hmem with rfl | hmem
          · exact ⟨_, rfl⟩
          · have := ih rest
              (base ++ [mkToolResultMessage tu (stringifyResult (tool tu.name tu.input))] ++
                [Message.mk "assistant" (r.outputMessage.content?.getD [])]) hh
              (by simpa [List.append_assoc] using hmem)
            calc base <+: base ++
                ([mkToolResultMessage tu (stringifyResult (tool tu.name tu.input))] ++
                 [Message.mk "assistant" (r.outputMessage.content?.getD [])]) := ⟨_, rfl⟩
              _ <+: hh := by simpa [List.append_assoc] using this

/-- With a well-formed follow-up script, the history snapshot passed at the
follow-up call of each dispatched block ends with the tool-result message
synthesized for exactly that block (same `toolUseId`, stringified result of
the tool call with the name and arguments of the block). -/
theorem deltaHists_forall2 (tool : String → String → CallToolResult)
    (blocks : List Block) (s : List GatewayOutcome) (base : List Message)
    (h : scriptOk blocks s = true) :
    List.Forall₂
      (fun tu hh => ∃ p,
        hh = p ++ [mkToolResultMessage tu (stringifyResult (tool tu.name tu.input))])
      (dispatchedTools blocks) (deltaHists tool base blocks s) := by
  induction blocks generalizing s base with
  | nil => simp [deltaHists, dispatchedTools]
  | cons b bs ih =>
    rcases hd : blockDispatch b with _ | tu
    · simp only [scriptOk, hd] at h
      simpa [deltaHists, dispatchedTools, List.filterMap_cons, hd] using ih s base h
    · rcases hs : s with _ | ⟨o, rest⟩
      · rw [hs] at h; simp [scriptOk, hd] at h
      · cases o with
        | err m => rw [hs] at h; simp [scriptOk, hd] at h
        | ok r =>
          rw [hs] at h
          simp only [scriptOk, hd] at h
          simp only [deltaHists, dispatchedTools, List.filterMap_cons, hd]
          exact List.Forall₂.cons ⟨base, rfl⟩ (ih rest _ h)

/-- The history snapshots of the follow-up calls, with the final history
appended, form a chain under list-extension starting from any earlier
snapshot of the history: each gateway call sees an extension of what the
previous call saw, and the final history extends all of them.  This holds
on every path, aborting ones included. -/
theorem deltaHists_chain_from (tool : String → String → CallToolResult)
    (blocks : List Block) (s : List GatewayOutcome) (base prev : List Message)
    (hprev : prev <+: base) :
    List.Chain' (· <+: ·)
      (prev :: (deltaHists tool base blocks s ++ [base ++ deltaMsgs tool blocks s])) := by
  induction blocks generalizing s base prev with
  | nil =>
    simp only [deltaHists, deltaMsgs, List.nil_append, List.append_nil]
    exact List.chain'_pair.mpr hprev
  | cons b bs ih =>
    rcases hd : blockDispatch b with _ | tu
    · simpa [deltaHists, deltaMsgs, hd] using ih s base prev hprev
    · have htr : prev <+:
          base ++ [mkToolResultMessage tu (stringifyResult (tool tu.name tu.input))] :=
        hprev.trans ⟨_, rfl⟩
      rcases hs : s with _ | ⟨o, rest⟩
      · simp only [deltaHists, deltaMsgs, hd]
        rw [List.singleton_append, List.chain'_cons, List.chain'_cons]
        exact ⟨htr, ⟨[], List.append_nil _⟩, List.chain'_singleton _⟩
      · cases o with
        | err m =>
          simp only [deltaHists, deltaMsgs, hd]
          rw [List.singleton_append, List.chain'_cons, List.chain'_cons]
          exact ⟨htr, ⟨[], List.append_nil _⟩, List.chain'_singleton _⟩
        | ok r =>
          simp only [deltaHists, deltaMsgs, hd]
          rw [List.cons_append, List.chain'_cons]
          refine ⟨htr, ?_⟩
          have hih := ih rest
            (base ++ [mkToolResultMessage tu (stringifyResult (tool tu.name tu.input))] ++
              [Message.mk "assistant" (r.outputMessage.content?.getD [])])
            (base ++ [mkToolResultMessage tu (stringifyResult (tool tu.name tu.input))])
            ⟨_, rfl⟩
          simpa [List.append_assoc] using hih

/-- When every content block carries a `text` key, the loop only collects
those texts: no tool call, no follow-up gateway call, no history growth,
no abort. -/
theorem deltas_of_all_text (tool : String → String → CallToolResult)
    (blocks : List Block) (s : List GatewayOutcome) (base : List Message)
    (h : ∀ b ∈ blocks, (b.text?).isSome = true) :
    deltaTexts tool blocks s = blocks.filterMap (fun b => b.text?) ∧
    deltaTools blocks s = [] ∧
    deltaHists tool base blocks s = [] ∧
    deltaMsgs tool blocks s = [] ∧
    runAborts blocks s = false := by
  induction blocks generalizing s base with
  | nil => simp [deltaTexts, deltaTools, deltaHists, deltaMsgs, runAborts]
  | cons b bs ih =>
    have hb := h b (List.mem_cons_self b bs)
    rcases ht : b.text? with _ | t
    · rw [ht] at hb; simp at hb
    · have hd : blockDispatch b = none := by simp [blockDispatch, ht]
      have hrest : ∀ x ∈ bs, (x.text?).isSome = true :=
        fun x hx => h x (List.mem_cons_of_mem b hx)
      have := ih s base hrest
      simp [deltaTexts, deltaTools, deltaHists, deltaMsgs, runAborts,
        List.filterMap_cons, hd, ht, this]

/-- `process_query` when the initial gateway call fails: the fixed error
string is returned at once; the only gateway call got the fresh history. -/
theorem process_query_err (tool : String → String → CallToolResult)
    (m : String) (rest : List GatewayOutcome) (q : String) :
    process_query tool (GatewayOutcome.err m :: rest) q =
      { result := "Error calling Bedrock API"
        messages := [mkUserMessage q]
        finalText := []
        gatewayHistories := [[mkUserMessage q]]
        toolInvocations := []
        errored := true } := rfl

/-- `process_query` when the initial gateway call succeeds, in closed form
through the delta functions of the block loop. -/
theorem process_query_ok (tool : String → String → CallToolResult)
    (R0 : GatewayResponse) (rest : List GatewayOutcome) (q : String) :
    process_query tool (GatewayOutcome.ok R0 :: rest) q =
      { result :=
          if runAborts (responseContent R0) rest then "Error calling Bedrock API"
          else String.intercalate "\n" (deltaTexts tool (responseContent R0) rest)
        messages := [mkUserMessage q, Message.mk "assistant" (responseContent R0)] ++
          deltaMsgs tool (responseContent R0) rest
        finalText := deltaTexts tool (responseContent R0) rest
        gatewayHistories := [mkUserMessage q] ::
          deltaHists tool [mkUserMessage q, Message.mk "assistant" (responseContent R0)]
            (responseContent R0) rest
        toolInvocations := deltaTools (responseContent R0) rest
        errored := runAborts (responseContent R0) rest } := by
  have hrun := runBlocks_eq tool (responseContent R0)
    ⟨[mkUserMessage q, Message.mk "assistant" (responseContent R0)], [], rest,
     [[mkUserMessage q]], [], false⟩ rfl
  simp only [process_query, takeOutcome]
  simp only [responseContent] at hrun
  rw [show ([mkUserMessage q] : List Message) ++
      [Message.mk "assistant" (R0.outputMessage.content?.getD [])] =
      [mkUserMessage q, Message.mk "assistant" (R0.outputMessage.content?.getD [])] from rfl] at *
  rw [hrun]
  simp [responseContent]

/-! Claim theorems. -/

/-- C5: for an initial gateway response whose content blocks all carry a
text, `process_query` returns exactly those texts joined by newline in
arrival order, performs no tool invocation and no further gateway call
(the only history passed to the gateway is the fresh one), and does not
error. -/
theorem c5_text_only_response (tool : String → String → CallToolResult)
    (q : String) (R : GatewayResponse) (rest : List GatewayOutcome)
    (h : ∀ b ∈ responseContent R, (b.text?).isSome = true) :
    (process_query tool (GatewayOutcome.ok R :: rest) q).result =
      String.intercalate "\n" ((responseContent R).filterMap (fun b => b.text?)) ∧
    (process_query tool (GatewayOutcome.ok R :: rest) q).toolInvocations = [] ∧
    (process_query tool (GatewayOutcome.ok R :: rest) q).gatewayHistories =
      [[mkUserMessage q]] ∧
    (process_query tool (GatewayOutcome.ok R :: rest) q).errored = false := by
  obtain ⟨h1, h2, h3, h4, h5⟩ := deltas_of_all_text tool (responseContent R) rest
    [mkUserMessage q, Message.mk "assistant" (responseContent R)] h
  rw [process_query_ok]
  simp [h1, h2, h3, h5]

/-- Witness for C5: the spec example, a stub answering `4` to one query. -/
theorem c5_text_only_response_witness :
    (process_query sampleTool [GatewayOutcome.ok (mkResponse [textBlock "4"])]
      "What is 2+2?").result = "4" ∧
    (process_query sampleTool [GatewayOutcome.ok (mkResponse [textBlock "4"])]
      "What is 2+2?").toolInvocations = [] ∧
    (process_query sampleTool [GatewayOutcome.ok (mkResponse [textBlock "4"])]
      "What is 2+2?").gatewayHistories = [[mkUserMessage "What is 2+2?"]] ∧
    (process_query sampleTool [GatewayOutcome.ok (mkResponse [textBlock "4"])]
      "What is 2+2?").errored = false := by
  have := c5_text_only_response sampleTool "What is 2+2?"
    (mkResponse [textBlock "4"]) [] (by decide)
  simpa using this

/-- C9: a gateway response with the `output`, `message` or `content` field
missing, or with an empty content list, is handled without failure: the
block list is treated as empty and the empty string is returned, with no
tool call and no follow-up gateway call. -/
theorem c9_missing_content (tool : String → String → CallToolResult)
    (q : String) (R : GatewayResponse) (rest : List GatewayOutcome)
    (h : R.output? = none ∨ R.outputMessage.content? = none ∨
      R.outputMessage.content? = some []) :
    (process_query tool (GatewayOutcome.ok R :: rest) q).result = "" ∧
    (process_query tool (GatewayOutcome.ok R :: rest) q).toolInvocations = [] ∧
    (process_query tool (GatewayOutcome.ok R :: rest) q).gatewayHistories =
      [[mkUserMessage q]] ∧
    (process_query tool (GatewayOutcome.ok R :: rest) q).errored = false := by
  have hc : responseContent R = [] := by
    rcases h with h | h | h
    · simp [responseContent, GatewayResponse.outputMessage, h]
    · simp [responseContent, h]
    · simp [responseContent, h]
  rw [process_query_ok]
  rw [hc]
  simp [deltaTexts, deltaTools, deltaHists, deltaMsgs, runAborts,
    String.intercalate]

/-- Witness for C9: a response with no `output` key at all. -/
theorem c9_missing_content_witness :
    (process_query sampleTool [GatewayOutcome.ok {}] "hi").result = "" ∧
    (process_query sampleTool [GatewayOutcome.ok {}] "hi").toolInvocations = [] ∧
    (process_query sampleTool [GatewayOutcome.ok {}] "hi").gatewayHistories =
      [[mkUserMessage "hi"]] ∧
    (process_query sampleTool [GatewayOutcome.ok {}] "hi").errored = false := by
  have := c9_missing_content sampleTool "hi" {} [] (Or.inl rfl)
  simpa using this

/-- C10: a content block of the initial response carrying neither a `text`
nor a `toolUse` key leaves the loop state untouched (no output fragment, no
tool invocation, no follow-up gateway call), yet it is part of the
assistant message appended verbatim to the history. -/
theorem c10_unknown_block_inert (tool : String → String → CallToolResult)
    (q : String) (R0 : GatewayResponse) (rest : List GatewayOutcome) (b : Block)
    (hb1 : b.text? = none) (hb2 : b.toolUse? = none)
    (hmem : b ∈ responseContent R0) :
    (∀ st : LoopState, handleBlock tool st b = st) ∧
    (process_query tool (GatewayOutcome.ok R0 :: rest) q).messages.take 2 =
      [mkUserMessage q, Message.mk "assistant" (responseContent R0)] ∧
    b ∈ (Message.mk "assistant" (responseContent R0)).content := by
  refine ⟨?_, ?_, hmem⟩
  · intro st
    by_cases ha : st.aborted
    · simp [handleBlock, ha]
    · simp [handleBlock, ha, hb1, hb2]
  · rw [process_query_ok]
    simp

/-- Witness for C10: a block holding only a `toolResult` key inside an
initial response. -/
theorem c10_unknown_block_inert_witness :
    (∀ st : LoopState,
      handleBlock sampleTool st { toolResult? := some ⟨"x", []⟩ } = st) ∧
    (process_query sampleTool
      [GatewayOutcome.ok (mkResponse [{ toolResult? := some ⟨"x", []⟩ }])]
      "hi").messages.take 2 =
      [mkUserMessage "hi",
       Message.mk "assistant"
         (responseContent (mkResponse [{ toolResult? := some ⟨"x", []⟩ }]))] ∧
    ({ toolResult? := some ⟨"x", []⟩ } : Block) ∈
      (Message.mk "assistant"
        (responseContent (mkResponse [{ toolResult? := some ⟨"x", []⟩ }]))).content :=
  c10_unknown_block_inert sampleTool "hi"
    (mkResponse [{ toolResult? := some ⟨"x", []⟩ }]) []
    { toolResult? := some ⟨"x", []⟩ } rfl rfl (by decide)

/-- `process_query` on an exhausted script behaves as an initial gateway
failure. -/
theorem process_query_nil (tool : String → String → CallToolResult) (q : String) :
    process_query tool [] q =
      { result := "Error calling Bedrock API"
        messages := [mkUserMessage q]
        finalText := []
        gatewayHistories := [[mkUserMessage q]]
        toolInvocations := []
        errored := true } := rfl

/-- C1 (counterexample to the claim as stated): the claim bounds the output
at one extra text fragment per follow-up response.  In the run below the
initial response holds a single `ToolUse` block and the follow-up response
holds two text blocks; the loop appends the marker and then BOTH follow-up
fragments, so the fragments appended from the follow-up number two, not at
most one. -/
theorem c1_counterexample :
    (process_query sampleTool twoTextScript "q").finalText =
      ["[Calling tool add with args args]", "a", "b"] ∧
    ¬ (((process_query sampleTool twoTextScript "q").finalText.drop 1).length ≤ 1) := by
  decide

/-- C1 (amended): for an initial gateway response, when every dispatched
block finds a well-formed follow-up response in the script, each `ToolUse`
block of the initial response causes exactly one tool invocation with its
name and arguments (and nothing else is ever invoked — in particular no
`ToolUse` block of a follow-up response), exactly one follow-up gateway
call per block is made (`1 + n` calls in total, so no third-level call),
and the output buffer is the closed form `deltaTexts`: the initial texts in
order, each dispatched block contributing its marker followed by every text
fragment of its follow-up response. -/
theorem c1_tool_round_trip (tool : String → String → CallToolResult)
    (q : String) (R0 : GatewayResponse) (rest : List GatewayOutcome)
    (h : scriptOk (responseContent R0) rest = true) :
    (process_query tool (GatewayOutcome.ok R0 :: rest) q).toolInvocations =
      (dispatchedTools (responseContent R0)).map (fun tu => (tu.name, tu.input)) ∧
    (process_query tool (GatewayOutcome.ok R0 :: rest) q).gatewayHistories.length =
      1 + (dispatchedTools (responseContent R0)).length ∧
    (process_query tool (GatewayOutcome.ok R0 :: rest) q).finalText =
      deltaTexts tool (responseContent R0) rest ∧
    (process_query tool (GatewayOutcome.ok R0 :: rest) q).errored = false := by
  rw [process_query_ok]
  simp [deltaTools_of_scriptOk _ _ h, runAborts_of_scriptOk _ _ h,
    deltaHists_length_of_scriptOk tool _ _ _ h, Nat.add_comm]

/-- Witness for C1: one `ToolUse` block, one follow-up with two texts. -/
theorem c1_tool_round_trip_witness :
    (process_query sampleTool twoTextScript "q").toolInvocations =
      (dispatchedTools (responseContent (mkResponse [toolUseBlock "add" "args" "t1"]))).map
        (fun tu => (tu.name, tu.input)) ∧
    (process_query sampleTool twoTextScript "q").gatewayHistories.length =
      1 + (dispatchedTools (responseContent (mkResponse [toolUseBlock "add" "args" "t1"]))).length ∧
    (process_query sampleTool twoTextScript "q").finalText =
      deltaTexts sampleTool (responseContent (mkResponse [toolUseBlock "add" "args" "t1"]))
        [GatewayOutcome.ok (mkResponse [textBlock "a", textBlock "b"])] ∧
    (process_query sampleTool twoTextScript "q").errored = false :=
  c1_tool_round_trip sampleTool "q" (mkResponse [toolUseBlock "add" "args" "t1"])
    [GatewayOutcome.ok (mkResponse [textBlock "a", textBlock "b"])] (by decide)

/-- C3: whenever some gateway call of a query fails (initial or follow-up),
`process_query` returns the fixed string `"Error calling Bedrock API"`; the
tools invoked are an initial segment of the tools requested by the initial
response (the remaining tool blocks are abandoned), and an initial failure
happens before any tool call, with only the fresh history ever sent. -/
theorem c3_gateway_error (tool : String → String → CallToolResult)
    (script : List GatewayOutcome) (q : String)
    (h : (process_query tool script q).errored = true) :
    (process_query tool script q).result = "Error calling Bedrock API" ∧
    (∀ R0 rest, script = GatewayOutcome.ok R0 :: rest →
      (process_query tool script q).toolInvocations <+:
        (dispatchedTools (responseContent R0)).map (fun tu => (tu.name, tu.input))) ∧
    (∀ m rest, script = GatewayOutcome.err m :: rest →
      (process_query tool script q).toolInvocations = [] ∧
      (process_query tool script q).gatewayHistories = [[mkUserMessage q]]) := by
  rcases script with _ | ⟨o, rest⟩
  · refine ⟨rfl, ?_, ?_⟩
    · intro R0 rest hcon
      cases hcon
    · intro m rest hcon
      cases hcon
  · cases o with
    | err m =>
      rw [process_query_err]
      refine ⟨rfl, ?_, ?_⟩
      · intro R0 rest' hcon
        cases hcon
      · intro m' rest' hcon
        exact ⟨rfl, rfl⟩
    | ok r =>
      rw [process_query_ok] at h ⊢
      simp only at h
      refine ⟨by simp [h], ?_, ?_⟩
      · intro R0 rest' hcon
        injection hcon with h1 h2
        injection h1 with h1
        subst h1
        subst h2
        simpa using deltaTools_isPre (responseContent r) rest
      · intro m' rest' hcon
        cases hcon

/-- Witness for C3: a `ClientError` at the initial gateway call. -/
theorem c3_gateway_error_witness :
    (process_query sampleTool [GatewayOutcome.err "boom"] "q").result =
      "Error calling Bedrock API" ∧
    (process_query sampleTool [GatewayOutcome.err "boom"] "q").toolInvocations = [] ∧
    (process_query sampleTool [GatewayOutcome.err "boom"] "q").gatewayHistories =
      [[mkUserMessage "q"]] := by
  have := c3_gateway_error sampleTool [GatewayOutcome.err "boom"] "q" (by decide)
  exact ⟨this.1, (this.2.2 "boom" [] rfl).1, (this.2.2 "boom" [] rfl).2⟩

/-- C4: each query starts from a fresh history.  Running one query after
another yields for the second exactly the result of running it alone (no
state threads between the calls, the history being local to
`process_query`); the history passed at the first gateway call of a query
is exactly the singleton fresh user message, and every history ever passed
to the gateway during the query extends that fresh message — it contains
nothing that the query itself did not produce. -/
theorem c4_fresh_history (tool : String → String → CallToolResult)
    (s1 : List GatewayOutcome) (q1 : String)
    (s2 : List GatewayOutcome) (q2 : String) :
    (runQueries tool [s1, s2] [q1, q2])[1]? = some (process_query tool s2 q2) ∧
    (process_query tool s2 q2).gatewayHistories.head? = some [mkUserMessage q2] ∧
    ∀ h ∈ (process_query tool s2 q2).gatewayHistories, [mkUserMessage q2] <+: h := by
  refine ⟨rfl, ?_, ?_⟩
  · rcases s2 with _ | ⟨o, rest⟩
    · rfl
    · cases o with
      | err m => rfl
      | ok r =>
        rw [process_query_ok]
        rfl
  · intro h hmem
    rcases s2 with _ | ⟨o, rest⟩
    · rw [process_query_nil] at hmem
      have : h = [mkUserMessage q2] := by simpa using hmem
      exact this ▸ ⟨[], List.append_nil _⟩
    · cases o with
      | err m =>
        rw [process_query_err] at hmem
        have : h = [mkUserMessage q2] := by simpa using hmem
        exact this ▸ ⟨[], List.append_nil _⟩
      | ok r =>
        rw [process_query_ok] at hmem
        simp only [List.mem_cons] at hmem
        rcases hmem with rfl | hmem
        · exact ⟨[], List.append_nil _⟩
        · have hext := deltaHists_mem_extends tool (responseContent r) rest
            [mkUserMessage q2, Message.mk "assistant" (responseContent r)] h hmem
          exact List.IsPrefix.trans ⟨[Message.mk "assistant" (responseContent r)], rfl⟩ hext

/-- Witness for C4: two concrete consecutive queries. -/
theorem c4_fresh_history_witness :
    (runQueries sampleTool [[GatewayOutcome.err "e"],
        [GatewayOutcome.ok (mkResponse [textBlock "t"])]] ["a", "b"])[1]? =
      some (process_query sampleTool [GatewayOutcome.ok (mkResponse [textBlock "t"])] "b") ∧
    (process_query sampleTool [GatewayOutcome.ok (mkResponse [textBlock "t"])]
      "b").gatewayHistories.head? = some [mkUserMessage "b"] ∧
    [mkUserMessage "b"] <+: [mkUserMessage "b"] := by
  have := c4_fresh_history sampleTool [GatewayOutcome.err "e"] "a"
    [GatewayOutcome.ok (mkResponse [textBlock "t"])] "b"
  exact ⟨this.1, this.2.1, this.2.2 [mkUserMessage "b"] (by decide)⟩

/-- C2 (counterexample to the claim as stated): the claim asks that EVERY
`ToolUse` block entering the history — including those of follow-up
assistant messages — be answered by a `ToolResult` before the next gateway
call.  In the run below the initial response requests two tool calls and
the first follow-up response itself carries a `ToolUse` block with id `t3`;
the history passed at the third gateway call contains that block and no
`ToolResult` with id `t3` at all. -/
theorem c2_counterexample :
    (process_query sampleTool danglingToolUseScript "q").gatewayHistories.length = 3 ∧
    ((process_query sampleTool danglingToolUseScript "q").gatewayHistories[2]?).map
      (historyToolUseCount "t3") = some 1 ∧
    ((process_query sampleTool danglingToolUseScript "q").gatewayHistories[2]?).map
      (historyToolResultCount "t3") = some 0 := by
  decide

/-- C2 (amended): the histories passed at the successive gateway calls of
one query, with the final history appended, form a chain under
list-extension — the history is only ever appended to, never mutated.
Every `ToolUse` block dispatched from the INITIAL assistant message is
answered before the next gateway call: the history passed at its follow-up
call ends with the synthesized tool-result message for exactly that block,
and that message contains exactly one `ToolResult` block, carrying the
`toolUseId` of the block.  (`ToolUse` blocks of follow-up responses are
appended to the history but never answered.) -/
theorem c2_history_pairing (tool : String → String → CallToolResult)
    (q : String) (R0 : GatewayResponse) (rest : List GatewayOutcome)
    (h : scriptOk (responseContent R0) rest = true) :
    List.Chain' (· <+: ·)
      ((process_query tool (GatewayOutcome.ok R0 :: rest) q).gatewayHistories ++
        [(process_query tool (GatewayOutcome.ok R0 :: rest) q).messages]) ∧
    List.Forall₂
      (fun tu hh => ∃ p,
        hh = p ++ [mkToolResultMessage tu (stringifyResult (tool tu.name tu.input))])
      (dispatchedTools (responseContent R0))
      ((process_query tool (GatewayOutcome.ok R0 :: rest) q).gatewayHistories.drop 1) ∧
    ∀ (tu : ToolUseBlock) (rc : String),
      msgToolResultCount tu.toolUseId (mkToolResultMessage tu rc) = 1 := by
  rw [process_query_ok]
  refine ⟨?_, ?_, ?_⟩
  · simp only [List.cons_append]
    exact deltaHists_chain_from tool (responseContent R0) rest
      [mkUserMessage q, Message.mk "assistant" (responseContent R0)]
      [mkUserMessage q] ⟨[Message.mk "assistant" (responseContent R0)], rfl⟩
  · simpa using deltaHists_forall2 tool (responseContent R0) rest
      [mkUserMessage q, Message.mk "assistant" (responseContent R0)] h
  · intro tu rc
    simp [msgToolResultCount, mkToolResultMessage, List.filter]

/-- Witness for C2 (amended): the single-tool run with a two-text
follow-up. -/
theorem c2_history_pairing_witness :
    List.Chain' (· <+: ·)
      ((process_query sampleTool twoTextScript "q").gatewayHistories ++
        [(process_query sampleTool twoTextScript "q").messages]) ∧
    List.Forall₂
      (fun tu hh => ∃ p,
        hh = p ++ [mkToolResultMessage tu (stringifyResult (sampleTool tu.name tu.input))])
      (dispatchedTools (responseContent (mkResponse [toolUseBlock "add" "args" "t1"])))
      ((process_query sampleTool twoTextScript "q").gatewayHistories.drop 1) ∧
    msgToolResultCount "t1" (mkToolResultMessage ⟨"add", "args", "t1"⟩ "4") = 1 := by
  have := c2_history_pairing sampleTool "q" (mkResponse [toolUseBlock "add" "args" "t1"])
    [GatewayOutcome.ok (mkResponse [textBlock "a", textBlock "b"])] (by decide)
  exact ⟨this.1, this.2.1, this.2.2 ⟨"add", "args", "t1"⟩ "4"⟩

/-- C6: the interpreter-selection contract of `connect_to_server`.  A `.py`
path selects the current interpreter and launches the child; an
unrecognized extension fails with the unsupported-script error before
anything starts.  But a `.js` path, for which the claim promises the node
interpreter, instead hits a `NameError` — the environment construction
dereferences `python_path`, assigned only on the `.py` branch — so no child
process is ever started for `.js` scripts. -/
theorem c6_connect_interpreter_selection :
    connect_to_server "/venv/bin/python" "weather.py" =
      ConnectOutcome.launched "/venv/bin/python" ["weather.py"] ∧
    connect_to_server "/venv/bin/python" "weather.txt" =
      ConnectOutcome.unsupportedScript "Server script must be a .py or .js file" ∧
    connect_to_server "/venv/bin/python" "weather.js" =
      ConnectOutcome.nameErrorPythonPath := by
  decide

/-- C7 (counterexample to the claim as stated): the claim says only
non-empty trimmed lines are forwarded to the conversation loop; but the
shell forwards every non-quit trimmed line, the empty one included. -/
theorem c7_counterexample :
    (chat_loop (fun q => Except.ok q) [""]).forwarded = [""] ∧
    ("" : String).length = 0 := by
  decide

/-- C7 (amended): the shell trims each input line; a trimmed line equal to
`quit` in any letter case terminates the loop at once, with nothing
forwarded or printed for it and the remaining input left unread; every
other trimmed line — the empty one included — is forwarded to the
conversation loop, and the response (or error report) is printed for it,
in order. -/
theorem c7_shell_loop (process : String → Except String String)
    (lines : List String) :
    chat_loop process lines =
      ⟨(lines.takeWhile notQuit).map (fun l => pyStrip l),
       (lines.takeWhile notQuit).map (fun l => renderResponse (process (pyStrip l))),
       lines.any (fun l => !(notQuit l)),
       (lines.dropWhile notQuit).drop 1⟩ := by
  induction lines with
  | nil => rfl
  | cons l rest ih =>
    by_cases hq : pyLower (pyStrip l) = "quit"
    · have hnq : notQuit l = false := by simp [notQuit, hq]
      simp [chat_loop, hq, List.takeWhile_cons, List.dropWhile_cons,
        List.any_cons, hnq]
    · have hnq : notQuit l = true := by simp [notQuit, hq]
      simp [chat_loop, hq, List.takeWhile_cons, List.dropWhile_cons,
        List.any_cons, hnq, ih]

/-- C8: an error raised while one line is processed is caught at the shell
level: the error is reported in the printed output, the shell does not
terminate, and it goes on to handle the remaining lines exactly as it would
have without the error. -/
theorem c8_shell_error_contained (process : String → Except String String)
    (lines : List String) (line e : String)
    (hq : notQuit line = true)
    (he : process (pyStrip line) = Except.error e) :
    chat_loop process (line :: lines) =
      ⟨pyStrip line :: (chat_loop process lines).forwarded,
       ("\nError: " ++ e) :: (chat_loop process lines).printed,
       (chat_loop process lines).quitDone,
       (chat_loop process lines).leftover⟩ := by
  have hq' : ¬ (pyLower (pyStrip line) = "quit") := by
    simpa [notQuit] using hq
  simp [chat_loop, hq', he, renderResponse]

/-- Witness for C8: a handler that raises on the one line it gets. -/
theorem c8_shell_error_contained_witness :
    chat_loop (fun _ => Except.error "E") ["boom"] =
      ⟨pyStrip "boom" :: (chat_loop (fun _ => Except.error "E") []).forwarded,
       ("\nError: " ++ "E") :: (chat_loop (fun _ => Except.error "E") []).printed,
       (chat_loop (fun _ => Except.error "E") []).quitDone,
       (chat_loop (fun _ => Except.error "E") []).leftover⟩ :=
  c8_shell_error_contained (fun _ => Except.error "E") [] "boom" "E"
    (by decide) rfl
